import Mathlib

/-!
# Shallow embedding of the real-time fraud-detection feature pipeline

This file models, in Lean 4, the core of the streaming feature-extraction
pipeline (preprocessor, Redis-backed feature store, feature extractor and
consumer loop) and proves properties of the model.

Modelling conventions:
* Python floats are modelled as exact rationals (ℚ); `round(x, n)` is
  modelled as round-half-to-even at n decimal digits, which is Python 3
  float rounding on exactly representable values.
* The Redis store is modelled as a map from card id to a per-card state
  record; a sorted set is a list of (score, member) pairs kept in
  ascending score order; a set is a duplicate-free list.
* Members of the history sorted set are either decodable transaction
  summaries or undecodable (corrupt) raw strings, mirroring the
  json.loads try/except in the retrieval loop.
* Timestamps are integers (unix seconds).  Temporal features interpret
  them in a single fixed zone (UTC).  `amount_log` (a transcendental) and
  the merchant-feature pass-through are not modelled; no claim concerns
  them.  TTL bookkeeping is modelled only through the explicit trimming
  performed by the code itself.
-/

namespace Fraud

/-- Round-half-to-even of a rational to an integer (Python `round` to 0
digits, banker's rounding). -/
def rhe (q : ℚ) : ℤ :=
  if q - ⌊q⌋ < 1/2 then ⌊q⌋
  else if 1/2 < q - ⌊q⌋ then ⌊q⌋ + 1
  else if ⌊q⌋ % 2 = 0 then ⌊q⌋ else ⌊q⌋ + 1

/-- Python `round(x, n)` on rationals: round-half-to-even at `n` decimal
digits. -/
def pyRound (x : ℚ) (n : ℕ) : ℚ := (rhe (x * 10 ^ n) : ℚ) / 10 ^ n

/-- Modelled from the spec: rounding "half-away-from-zero to 2 decimals"
as the spec's words describe it (the code itself uses Python `round`,
i.e. `pyRound`); used only to compare spec and code. -/
def roundHalfAwayFromZero (x : ℚ) (n : ℕ) : ℚ :=
  if x < 0 then -((⌊(-x) * 10 ^ n + 1/2⌋ : ℚ) / 10 ^ n)
  else (⌊x * 10 ^ n + 1/2⌋ : ℚ) / 10 ^ n

/-! ## Preprocessor (`src/kafka/src/pipeline/preprocessor.py`) -/

/-- Raw incoming transaction record.  `none` models a field that is
absent or JSON null.  Numeric fields are modelled as already numeric
(string-encoded numbers and ISO timestamp strings are outside the
embedding); the id fields are strings. -/
structure RawTx where
  transaction_id : Option String
  card_id : Option String
  amount : Option ℚ
  merchant_id : Option String
  timestamp : Option ℤ
  merchant_category : Option String
  location_lat : Option ℚ
  location_lon : Option ℚ
  city : Option String
  state : Option String
  user_id : Option String
deriving DecidableEq

/-- A preprocessed transaction (the dictionary returned by `preprocess`). -/
@[ext]
structure Tx where
  transaction_id : String
  card_id : String
  amount : ℚ
  merchant_id : String
  timestamp : ℤ
  merchant_category : String
  location_lat : Option ℚ
  location_lon : Option ℚ
  city : String
  state : String
  user_id : String
deriving DecidableEq

/-- Re-reading a preprocessed record as a raw record (every required and
optional field present). -/
def Tx.toRaw (t : Tx) : RawTx :=
  ⟨some t.transaction_id, some t.card_id, some t.amount, some t.merchant_id,
   some t.timestamp, some t.merchant_category, t.location_lat, t.location_lon,
   some t.city, some t.state, some t.user_id⟩

/-- Error kinds raised by `preprocess` (`ValueError` in the source; the
spec distinguishes SchemaError and RangeError). -/
inductive PError where
  | schema (msg : String)
  | range (msg : String)
deriving DecidableEq

/-- The `REQUIRED_FIELDS` scan of `validate_schema`
(`field not in transaction or transaction[field] is None`). -/
def missingRequired (r : RawTx) : List String :=
  (if r.transaction_id = none then ["transaction_id"] else []) ++
  (if r.card_id = none then ["card_id"] else []) ++
  (if r.amount = none then ["amount"] else []) ++
  (if r.merchant_id = none then ["merchant_id"] else []) ++
  (if r.timestamp = none then ["timestamp"] else [])

/-- `TransactionPreprocessor.validate_schema`. -/
def validate_schema (r : RawTx) : Bool × String :=
  let missing := missingRequired r
  if missing = [] then (true, "")
  else (false, "Missing required fields: " ++ String.intercalate ", " missing)

/-- `self.amount_clip_value` (default max amount, 10000.0). -/
def amount_clip_value : ℚ := 10000

/-- `TransactionPreprocessor._normalize_amount`: absolute value if
negative, clip at the clip value, Python `round(·, 2)`. -/
def normalize_amount (clip : ℚ) (amount : ℚ) : ℚ :=
  let a1 := if amount < 0 then |amount| else amount
  let a2 := if a1 > clip then clip else a1
  pyRound a2 2

/-- `TransactionPreprocessor._parse_timestamp`, numeric case: an
int/float timestamp becomes the integer second. -/
def parse_timestamp (ts : ℤ) : ℤ := ts

/-- Coordinate range check used by `_validate_ranges`. -/
def coord_in_range (lo hi : ℚ) : Option ℚ → Bool
  | none => true
  | some x => decide (lo ≤ x ∧ x ≤ hi)

/-- `TransactionPreprocessor._validate_ranges`. -/
def validate_ranges (t : Tx) : Except PError Unit :=
  if t.amount ≤ 0 then .error (.range "Amount must be positive")
  else if ¬ (946684800 ≤ t.timestamp ∧ t.timestamp ≤ 4102444800) then
    .error (.range "Timestamp out of range")
  else if coord_in_range (-90) 90 t.location_lat = false then
    .error (.range "Invalid latitude")
  else if coord_in_range (-180) 180 t.location_lon = false then
    .error (.range "Invalid longitude")
  else .ok ()

/-- The record assembled by `preprocess` steps 2-5 (optional-field
defaults, type casts — identities in the typed embedding — amount
normalization and timestamp parsing) once the required fields are
known to be present. -/
def build_tx (r : RawTx) (tid cid : String) (a : ℚ) (mid : String) (ts : ℤ) : Tx :=
  { transaction_id := tid
    card_id := cid
    amount := normalize_amount amount_clip_value a
    merchant_id := mid
    timestamp := parse_timestamp ts
    merchant_category := r.merchant_category.getD "UNKNOWN"
    location_lat := r.location_lat
    location_lon := r.location_lon
    city := r.city.getD ""
    state := r.state.getD ""
    user_id := r.user_id.getD "" }

/-- `TransactionPreprocessor.preprocess`: schema validation, record
assembly (`build_tx`), range validation. -/
def preprocess (r : RawTx) : Except PError Tx :=
  match r.transaction_id, r.card_id, r.amount, r.merchant_id, r.timestamp with
  | some tid, some cid, some a, some mid, some ts =>
    match validate_ranges (build_tx r tid cid a mid ts) with
    | .ok _ => .ok (build_tx r tid cid a mid ts)
    | .error e => .error e
  | _, _, _, _, _ =>
    .error (.schema ("Invalid transaction: " ++ (validate_schema r).2))

/-! ## Feature store (`src/kafka/src/pipeline/feature_store.py`)

The Redis state is a map from card id to a per-card record.  The
`card:{id}:tx_history` sorted set is a list of (score, member) pairs in
ascending score order; a member is either a decodable transaction
summary or a corrupt (undecodable) raw string, mirroring the
`json.loads` try/except in `get_transaction_history`.  The
`card:{id}:merchants:24h` set is a duplicate-free list and the
`card:{id}:stats` hash is the two optional fields. -/

/-- The JSON payload stored in the history sorted set
(`{amount, merchant_id, timestamp}`). -/
structure TxEntry where
  amount : ℚ
  merchant_id : String
  timestamp : ℤ
deriving DecidableEq

/-- A member of the history sorted set: either a JSON-decodable
transaction summary or an undecodable raw string. -/
inductive ZMember where
  | valid (tx : TxEntry)
  | corrupt (raw : String)
deriving DecidableEq

/-- `json.loads` on a stored member: corrupt members fail to decode. -/
def ZMember.decode : ZMember → Option TxEntry
  | .valid tx => some tx
  | .corrupt _ => none

/-- Per-card Redis state. -/
structure CardState where
  history : List (ℤ × ZMember)
  merchants : List String
  avg_amount : Option ℚ
  last_tx_timestamp : Option ℤ
deriving DecidableEq

/-- State of a key family that has never been written. -/
def CardState.empty : CardState := ⟨[], [], none, none⟩

/-- The whole store: card id to card state. -/
structure Store where
  cards : String → CardState

/-- `ZADD key {member: score}`: replace any existing copy of the member,
then insert at its score position (ascending scores). -/
def zinsert (score : ℤ) (m : ZMember) : List (ℤ × ZMember) → List (ℤ × ZMember)
  | [] => [(score, m)]
  | e :: rest => if score ≤ e.1 then (score, m) :: e :: rest else e :: zinsert score m rest

/-- `ZADD` on a whole sorted set. -/
def zadd (h : List (ℤ × ZMember)) (m : ZMember) (score : ℤ) : List (ℤ × ZMember) :=
  zinsert score m (h.filter (fun e => e.2 ≠ m))

/-- `ZRANGEBYSCORE key lo hi` (both bounds inclusive). -/
def zrangebyscore (h : List (ℤ × ZMember)) (lo hi : ℤ) : List ZMember :=
  (h.filter (fun e => lo ≤ e.1 ∧ e.1 ≤ hi)).map (fun e => e.2)

/-- `ZREMRANGEBYSCORE key -inf hi`: drops every member with score ≤ hi
(Redis score ranges are inclusive at both ends). -/
def zremrangebyscoreMinf (h : List (ℤ × ZMember)) (hi : ℤ) : List (ℤ × ZMember) :=
  h.filter (fun e => ¬ e.1 ≤ hi)

/-- Point update of one card's state. -/
def Store.setCard (s : Store) (card_id : String) (cs : CardState) : Store :=
  ⟨Function.update s.cards card_id cs⟩

/-- `FeatureStore.add_to_transaction_history`: store the summary with
score = timestamp, then clean up entries older than the TTL window via
`ZREMRANGEBYSCORE key -inf (timestamp - ttl)`. -/
def add_to_transaction_history (s : Store) (card_id : String) (t : TxEntry)
    (ttl : ℤ) : Store :=
  let cs := s.cards card_id
  let h1 := zadd cs.history (.valid t) t.timestamp
  let min_timestamp := t.timestamp - ttl
  s.setCard card_id { cs with history := zremrangebyscoreMinf h1 min_timestamp }

/-- The `json.loads` loop of `get_transaction_history`: decode each
member in order, skipping the ones that raise `JSONDecodeError`. -/
def decodeAll : List ZMember → List TxEntry
  | [] => []
  | m :: rest =>
    match m.decode with
    | some tx => tx :: decodeAll rest
    | none => decodeAll rest

/-- `FeatureStore.get_transaction_history`: members whose score lies in
`[current_timestamp - window_seconds, current_timestamp]`, decoded. -/
def get_transaction_history (s : Store) (card_id : String)
    (window_seconds : ℤ) (current_timestamp : ℤ) : List TxEntry :=
  let min_timestamp := current_timestamp - window_seconds
  decodeAll (zrangebyscore (s.cards card_id).history min_timestamp current_timestamp)

/-- `FeatureStore.add_merchant_to_set` (`SADD`): insert if absent. -/
def add_merchant_to_set (s : Store) (card_id : String) (merchant_id : String)
    (_ttl : ℤ) : Store :=
  let cs := s.cards card_id
  if merchant_id ∈ cs.merchants then s
  else s.setCard card_id { cs with merchants := cs.merchants ++ [merchant_id] }

/-- `FeatureStore.get_unique_merchant_count` (`SCARD`); the
`window_seconds` parameter is accepted but not used by the source. -/
def get_unique_merchant_count (s : Store) (card_id : String)
    (_window_seconds : ℤ) : ℕ :=
  (s.cards card_id).merchants.length

/-- `FeatureStore.update_rolling_average`: read the prior average
(default 75.0 when the hash field is absent), apply the EMA step, store
and return the new average. -/
def update_rolling_average (s : Store) (card_id : String) (amount : ℚ)
    (alpha : ℚ) : ℚ × Store :=
  let cs := s.cards card_id
  let old_avg := cs.avg_amount.getD 75
  let new_avg := alpha * amount + (1 - alpha) * old_avg
  (new_avg, s.setCard card_id { cs with avg_amount := some new_avg })

/-- `FeatureStore.get_rolling_average`. -/
def get_rolling_average (s : Store) (card_id : String) : Option ℚ :=
  (s.cards card_id).avg_amount

/-- `FeatureStore.update_last_transaction_timestamp`. -/
def update_last_transaction_timestamp (s : Store) (card_id : String)
    (timestamp : ℤ) : Store :=
  let cs := s.cards card_id
  s.setCard card_id { cs with last_tx_timestamp := some timestamp }

/-- `FeatureStore.get_last_transaction_timestamp`. -/
def get_last_transaction_timestamp (s : Store) (card_id : String) : Option ℤ :=
  (s.cards card_id).last_tx_timestamp

/-- Store well-formedness: every decodable history member is stored at
score = its own `timestamp` field, as `add_to_transaction_history`
always writes it (`zadd(key, {tx_data: timestamp})`). -/
def StoreWF (s : Store) : Prop :=
  ∀ c : String, ∀ e ∈ (s.cards c).history, ∀ tx : TxEntry,
    e.2 = ZMember.valid tx → tx.timestamp = e.1

/-! ## Feature extractor (`src/kafka/src/pipeline/feature_extractor.py`)

Configuration values come from `FEATURE_CONFIG`: velocity windows
10m/1h/24h, `rolling_avg_alpha = 0.1`, `default_avg_amount = 75.0`.
`amount_log` (a transcendental) and the merchant-feature pass-through
are not part of the model. -/

/-- `FEATURE_CONFIG.rolling_avg_alpha`. -/
def rolling_avg_alpha : ℚ := 1/10

/-- `FEATURE_CONFIG.default_avg_amount`. -/
def default_avg_amount : ℚ := 75

/-- The extracted feature vector (modelled fields). -/
structure Features where
  amount : ℚ
  merchant_category : String
  has_location : ℕ
  tx_count_10m : ℕ
  tx_count_1h : ℕ
  tx_count_24h : ℕ
  total_amount_10m : ℚ
  total_amount_1h : ℚ
  total_amount_24h : ℚ
  unique_merchants_24h : ℕ
  time_since_last_tx : ℤ
  avg_tx_amount_30d : ℚ
  amount_deviation : ℚ
  amount_vs_avg_ratio : ℚ
  hour_of_day : ℤ
  day_of_week : ℤ
  is_weekend : ℕ
  is_night : ℕ
deriving DecidableEq

/-- Velocity features for one window: transaction count and rounded
amount sum over `get_transaction_history`. -/
def window_features (s : Store) (card_id : String) (window_seconds : ℤ)
    (current_timestamp : ℤ) : ℕ × ℚ :=
  let tx_history := get_transaction_history s card_id window_seconds current_timestamp
  (tx_history.length, pyRound (tx_history.foldl (fun acc tx => acc + tx.amount) 0) 2)

/-- `time_since_last_tx`: `current - last` when a prior positive
timestamp exists (Python truthiness also rejects a stored 0), else 0. -/
def time_since_last_tx (s : Store) (card_id : String)
    (current_timestamp : ℤ) : ℤ :=
  match get_last_transaction_timestamp s card_id with
  | some t => if t ≠ 0 ∧ 0 < t then current_timestamp - t else 0
  | none => 0

/-- `FeatureExtractor._compute_rolling_features`: a missing or zero
stored average is replaced by the default before computing the
deviation and ratio.  Returns
(`avg_tx_amount_30d`, `amount_deviation`, `amount_vs_avg_ratio`). -/
def compute_rolling_features (s : Store) (card_id : String)
    (current_amount : ℚ) : ℚ × ℚ × ℚ :=
  let current_avg :=
    match get_rolling_average s card_id with
    | none => default_avg_amount
    | some a => if a = 0 then default_avg_amount else a
  let amount_deviation :=
    if 0 < current_avg then (current_amount - current_avg) / current_avg else 0
  (pyRound current_avg 2, pyRound amount_deviation 3,
   if 0 < current_avg then pyRound (current_amount / current_avg) 3 else 1)

/-- `FeatureExtractor._compute_temporal_features`, with the timestamp
interpreted in a single fixed zone (UTC); timestamps are positive here
so truncating and flooring division agree. -/
def compute_temporal_features (timestamp : ℤ) : ℤ × ℤ × ℕ × ℕ :=
  let hour := timestamp % 86400 / 3600
  let day_of_week := (timestamp / 86400 + 3) % 7
  (hour, day_of_week,
   if 5 ≤ day_of_week then 1 else 0,
   if 22 ≤ hour ∨ hour < 6 then 1 else 0)

/-- `FeatureExtractor.extract_features` (modelled fields): transaction,
velocity, rolling and temporal features; reads the store, never writes. -/
def extract_features (s : Store) (t : Tx) : Features :=
  let w10 := window_features s t.card_id 600 t.timestamp
  let w1h := window_features s t.card_id 3600 t.timestamp
  let w24 := window_features s t.card_id 86400 t.timestamp
  let rolling := compute_rolling_features s t.card_id t.amount
  let temporal := compute_temporal_features t.timestamp
  { amount := t.amount
    merchant_category := t.merchant_category
    has_location := if t.location_lat ≠ none then 1 else 0
    tx_count_10m := w10.1
    tx_count_1h := w1h.1
    tx_count_24h := w24.1
    total_amount_10m := w10.2
    total_amount_1h := w1h.2
    total_amount_24h := w24.2
    unique_merchants_24h := get_unique_merchant_count s t.card_id 86400
    time_since_last_tx := time_since_last_tx s t.card_id t.timestamp
    avg_tx_amount_30d := rolling.1
    amount_deviation := rolling.2.1
    amount_vs_avg_ratio := rolling.2.2
    hour_of_day := temporal.1
    day_of_week := temporal.2.1
    is_weekend := temporal.2.2.1
    is_night := temporal.2.2.2 }

/-- `FeatureExtractor.update_card_state`: history append, merchant
set-add, EMA bump, last-timestamp write (in source order). -/
def update_card_state (s : Store) (card_id : String) (t : Tx) : Store :=
  let s1 := add_to_transaction_history s card_id
    ⟨t.amount, t.merchant_id, t.timestamp⟩ 86400
  let s2 := add_merchant_to_set s1 card_id t.merchant_id 86400
  let s3 := (update_rolling_average s2 card_id t.amount rolling_avg_alpha).2
  update_last_transaction_timestamp s3 card_id t.timestamp

/-! ## Consumer loop (`src/kafka/src/pipeline/consumer.py`) -/

/-- The loop's counters. -/
structure Metrics where
  messages_processed : ℕ
  messages_failed : ℕ
deriving DecidableEq

/-- `FeatureExtractionConsumer._process_message`: preprocess (a
`ValueError` aborts with no store write), extract (read-only), then
update the card state.  Returns the new store and the success flag. -/
def process_message (s : Store) (m : RawTx) : Store × Bool :=
  match preprocess m with
  | .error _ => (s, false)
  | .ok tx => (update_card_state s tx.card_id tx, true)

/-- One iteration of `FeatureExtractionConsumer.consume`: process the
message and bump `messages_processed` or `messages_failed`. -/
def consume_step (s : Store) (met : Metrics) (m : RawTx) : Store × Metrics :=
  let r := process_message s m
  if r.2 then (r.1, { met with messages_processed := met.messages_processed + 1 })
  else (r.1, { met with messages_failed := met.messages_failed + 1 })

/-! ## Concrete instances used in scenario checks -/

/-- A store in which every key family is empty (`Z0` in the spec's
scenarios). -/
def z0 : Store := ⟨fun _ => CardState.empty⟩

/-- The cold-start scenario event, already preprocessed:
amount 100.00, card C1, merchant M1, ts 1707580000. -/
def ev3 : Tx := ⟨"A", "C1", 100, "M1", 1707580000, "UNKNOWN", none, none, "", "", ""⟩

/-- A store whose only state is an average of exactly 0 for every card. -/
def s8 : Store := ⟨fun _ => { CardState.empty with avg_amount := some 0 }⟩

/-- A store with two merchants recorded for every card. -/
def s9 : Store := ⟨fun _ => { CardState.empty with merchants := ["M1", "M2"] }⟩

/-- A history entry at score 100. -/
def e2 : TxEntry := ⟨5, "M1", 100⟩

/-- A store whose history holds `e2` at its own timestamp. -/
def s2w : Store := ⟨fun _ => { CardState.empty with history := [(100, ZMember.valid e2)] }⟩

/-- A history entry sitting exactly at the trim boundary for an append
at timestamp 100000 (score 100000 − 86400 = 13600). -/
def e6 : TxEntry := ⟨7, "M1", 13600⟩

/-- The entry appended at timestamp 100000. -/
def e6b : TxEntry := ⟨9, "M2", 100000⟩

/-- A store holding only the boundary entry `e6`. -/
def s6 : Store := ⟨fun _ => { CardState.empty with history := [(13600, ZMember.valid e6)] }⟩

/-- An in-window history entry (score 20000 > 13600). -/
def e6w : TxEntry := ⟨11, "M3", 20000⟩

/-- A store holding only the in-window entry `e6w`. -/
def s6w : Store := ⟨fun _ => { CardState.empty with history := [(20000, ZMember.valid e6w)] }⟩

/-- The spec's schema-failure message: `card_id` absent, every other
required field present. -/
def m7 : RawTx := ⟨some "x", none, some 1, some "m", some 1707580000,
  none, none, none, none, none, none⟩

/-- A raw event whose amount 0.125 sits exactly on a rounding tie. -/
def r4 : RawTx := ⟨some "t4", some "c4", some (1/8), some "m4", some 1707580000,
  none, none, none, none, none, none⟩

/-- The preprocessed form of `r4` (amount rounds to the even cent). -/
def o4 : Tx := ⟨"t4", "c4", 12/100, "m4", 1707580000, "UNKNOWN", none, none, "", "", ""⟩

/-- A plain valid raw event. -/
def r5 : RawTx := ⟨some "t5", some "c5", some 100, some "m5", some 1707580000,
  none, none, none, none, none, none⟩

/-- The preprocessed form of `r5`. -/
def o5 : Tx := ⟨"t5", "c5", 100, "m5", 1707580000, "UNKNOWN", none, none, "", "", ""⟩

/-! ## Theorems -/

theorem rhe_intCast (n : ℤ) : rhe (n : ℚ) = n := by
  simp [rhe]

theorem pyRound_mul_int (x : ℚ) (n : ℕ) : ∃ m : ℤ, pyRound x n * 10 ^ n = m := by
  refine ⟨rhe (x * 10 ^ n), ?_⟩
  have h : (10 : ℚ) ^ n ≠ 0 := by positivity
  field_simp [pyRound]

theorem pyRound_idem (x : ℚ) (n : ℕ) : pyRound (pyRound x n) n = pyRound x n := by
  obtain ⟨m, hm⟩ := pyRound_mul_int x n
  have h : (10 : ℚ) ^ n ≠ 0 := by positivity
  have hx : pyRound x n = (m : ℚ) / 10 ^ n := (eq_div_iff h).mpr hm
  rw [hx]
  unfold pyRound
  rw [div_mul_cancel₀ _ h, rhe_intCast]

theorem rhe_le_of_le (q : ℚ) (m : ℤ) (h : q ≤ m) : rhe q ≤ m := by
  have hfl : ⌊q⌋ ≤ m := by
    have h2 : ⌊q⌋ ≤ ⌊(m : ℚ)⌋ := Int.floor_mono h
    simpa using h2
  have hq : (⌊q⌋ : ℚ) ≤ q := Int.floor_le q
  have hlt : (1:ℚ)/2 ≤ q - ⌊q⌋ → ⌊q⌋ + 1 ≤ m := by
    intro hh
    rcases lt_or_eq_of_le hfl with hl | he
    · omega
    · exfalso
      have hmq : (m : ℚ) < q := by
        rw [← he]
        linarith
      linarith
  unfold rhe
  split
  · exact hfl
  split
  · rename_i h1 h2
    exact hlt (le_of_lt h2)
  split
  · exact hfl
  · rename_i h1 h2 h3
    exact hlt (not_lt.mp h1)

theorem pyRound_le (x c : ℚ) (m : ℤ) (hc : c * 10 ^ 2 = m) (h : x ≤ c) :
    pyRound x 2 ≤ c := by
  have h10 : (0 : ℚ) < 10 ^ 2 := by norm_num
  have hxm : x * 10 ^ 2 ≤ (m : ℚ) := by
    rw [← hc]
    exact mul_le_mul_of_nonneg_right h (le_of_lt h10)
  have hr : rhe (x * 10 ^ 2) ≤ m := rhe_le_of_le _ _ hxm
  unfold pyRound
  rw [div_le_iff₀ h10, hc]
  exact_mod_cast hr

theorem pyRound_intCast (m : ℤ) (n : ℕ) : pyRound (m : ℚ) n = m := by
  unfold pyRound
  have hc : ((m : ℚ) * 10 ^ n) = ((m * 10 ^ n : ℤ) : ℚ) := by push_cast; ring
  have h : (10 : ℚ) ^ n ≠ 0 := by positivity
  rw [hc, rhe_intCast]
  push_cast
  field_simp

/-- C1: for every card and event, `update_rolling_average` at the
pipeline's α stores and returns `0.1·amount + 0.9·prev`, with `prev`
defaulting to 75.0 when no average is stored. -/
theorem update_rolling_average_ema (s : Store) (c : String) (a : ℚ) :
    (update_rolling_average s c a rolling_avg_alpha).1
        = 1/10 * a + 9/10 * ((s.cards c).avg_amount.getD 75)
      ∧ ((update_rolling_average s c a rolling_avg_alpha).2.cards c).avg_amount
        = some (1/10 * a + 9/10 * ((s.cards c).avg_amount.getD 75)) := by
  unfold update_rolling_average Store.setCard
  constructor
  · norm_num [rolling_avg_alpha]
  · simp only [Function.update_same]
    norm_num [rolling_avg_alpha]

theorem decodeAll_eq_filterMap (l : List ZMember) :
    decodeAll l = l.filterMap ZMember.decode := by
  induction l with
  | nil => rfl
  | cons m rest ih => cases m <;> simp [decodeAll, ZMember.decode, ih]

/-- C10: `get_transaction_history` returns exactly the decodable
members whose score is in range, in store order; corrupt members are
skipped and do not disturb the rest. -/
theorem get_transaction_history_skips_corrupt (s : Store) (c : String) (w t : ℤ) :
    get_transaction_history s c w t
      = (((s.cards c).history.filter (fun e => t - w ≤ e.1 ∧ e.1 ≤ t)).map
          (fun e => e.2)).filterMap ZMember.decode := by
  unfold get_transaction_history zrangebyscore
  rw [decodeAll_eq_filterMap]

/-- C9: `get_unique_merchant_count` ignores its window parameter and
returns the cardinality of the card's merchant set. -/
theorem get_unique_merchant_count_ignores_window (s : Store) (c : String)
    (w1 w2 : ℤ) (hnd : (s.cards c).merchants.Nodup) :
    get_unique_merchant_count s c w1 = get_unique_merchant_count s c w2
      ∧ get_unique_merchant_count s c w1 = (s.cards c).merchants.toFinset.card := by
  refine ⟨rfl, ?_⟩
  unfold get_unique_merchant_count
  rw [List.toFinset_card_of_nodup hnd]

theorem get_unique_merchant_count_ignores_window_witness :
    get_unique_merchant_count s9 "C1" 600 = get_unique_merchant_count s9 "C1" 3600
      ∧ get_unique_merchant_count s9 "C1" 600 = (s9.cards "C1").merchants.toFinset.card :=
  get_unique_merchant_count_ignores_window s9 "C1" 600 3600 (by decide)

/-- C8: a stored rolling average equal to exactly 0 is replaced by the
default 75.0 before the rolling features are computed, so the reported
average is 75 and the deviation and ratio are taken against 75. -/
theorem compute_rolling_features_zero_avg (s : Store) (c : String) (a : ℚ)
    (h : (s.cards c).avg_amount = some 0) :
    compute_rolling_features s c a
      = (75, pyRound ((a - 75) / 75) 3, pyRound (a / 75) 3) := by
  unfold compute_rolling_features get_rolling_average default_avg_amount
  rw [h]
  have h75 : pyRound (75 : ℚ) 2 = 75 := by
    have := pyRound_intCast 75 2
    norm_num at this
    exact this
  norm_num [h75]

theorem compute_rolling_features_zero_avg_witness :
    compute_rolling_features s8 "C1" 100
      = (75, pyRound ((100 - 75) / 75) 3, pyRound (100 / 75) 3) :=
  compute_rolling_features_zero_avg s8 "C1" 100 rfl

/-- C2: on a well-formed store, `get_transaction_history` returns only
entries whose timestamp lies in the inclusive window `[t − w, t]`; in
particular none later than `t`. -/
theorem get_transaction_history_point_in_time (s : Store) (c : String)
    (w t : ℤ) (hwf : StoreWF s) :
    ∀ tx ∈ get_transaction_history s c w t,
      t - w ≤ tx.timestamp ∧ tx.timestamp ≤ t := by
  intro tx htx
  unfold get_transaction_history zrangebyscore at htx
  rw [decodeAll_eq_filterMap] at htx
  simp only [List.mem_filterMap, List.mem_map, List.mem_filter] at htx
  obtain ⟨m, ⟨e, ⟨he, hrange⟩, hm⟩, hdec⟩ := htx
  have hvalid : m = ZMember.valid tx := by
    cases m with
    | valid t0 =>
      simp [ZMember.decode] at hdec
      rw [hdec]
    | corrupt r0 => simp [ZMember.decode] at hdec
  have hts : tx.timestamp = e.1 := hwf c e he tx (by rw [hm, hvalid])
  rw [hts]
  simpa using hrange

theorem get_transaction_history_point_in_time_witness :
    120 - 50 ≤ e2.timestamp ∧ e2.timestamp ≤ 120 := by
  refine get_transaction_history_point_in_time s2w "C1" 50 120 ?_ e2 ?_
  · intro c e he tx hx
    simp [s2w, CardState.empty] at he
    rw [he] at hx ⊢
    simp at hx
    rw [← hx]
    rfl
  · decide

theorem storeWF_empty : StoreWF z0 := by
  intro c e he tx htx
  simp [z0, CardState.empty] at he

theorem storeWF_setCard (s : Store) (c : String) (cs : CardState)
    (h : StoreWF s)
    (hcs : ∀ e ∈ cs.history, ∀ tx : TxEntry, e.2 = ZMember.valid tx → tx.timestamp = e.1) :
    StoreWF (s.setCard c cs) := by
  intro c' e he tx htx
  unfold Store.setCard at he
  by_cases hc : c' = c
  · subst hc
    rw [show (⟨Function.update s.cards c' cs⟩ : Store).cards c' = cs by
      simp [Function.update_same]] at he
    exact hcs e he tx htx
  · rw [show (⟨Function.update s.cards c cs⟩ : Store).cards c'
        = s.cards c' by simp [Function.update_noteq hc]] at he
    exact h c' e he tx htx

theorem mem_zinsert (sc : ℤ) (m : ZMember) (l : List (ℤ × ZMember))
    (e : ℤ × ZMember) : e ∈ zinsert sc m l ↔ e = (sc, m) ∨ e ∈ l := by
  induction l with
  | nil => simp [zinsert]
  | cons a rest ih =>
    unfold zinsert
    split
    · simp
    · simp [ih]
      tauto

/-- C6 counterexample: appending at timestamp 100000 removes the entry
stored exactly at score 100000 − 86400 = 13600, which the claim says is
retained. -/
theorem add_to_transaction_history_boundary_cex :
    ((add_to_transaction_history s6 "C1" e6b 86400).cards "C1").history
        = [(100000, ZMember.valid e6b)]
      ∧ (13600, ZMember.valid e6) ∉
          ((add_to_transaction_history s6 "C1" e6b 86400).cards "C1").history := by
  have h : ((add_to_transaction_history s6 "C1" e6b 86400).cards "C1").history
      = [(100000, ZMember.valid e6b)] := by
    simp [add_to_transaction_history, Store.setCard, s6, CardState.empty, zadd,
      zremrangebyscoreMinf, zinsert, e6, e6b]
  refine ⟨h, ?_⟩
  rw [h]
  simp [e6, e6b]

/-- C6 (amended): after `add_to_transaction_history` at timestamp `t`,
a previously stored entry (other than a copy of the new member) is kept
exactly when its score is strictly greater than `t − 86400`; entries
with score ≤ `t − 86400` — the boundary score included — are removed. -/
theorem add_to_transaction_history_trim (s : Store) (c : String) (t : TxEntry)
    (e : ℤ × ZMember) (he : e ∈ (s.cards c).history)
    (hm : e.2 ≠ ZMember.valid t) :
    e ∈ ((add_to_transaction_history s c t 86400).cards c).history
      ↔ t.timestamp - 86400 < e.1 := by
  unfold add_to_transaction_history Store.setCard zadd zremrangebyscoreMinf
  simp only [Function.update_same, List.mem_filter, mem_zinsert, decide_eq_true_eq,
    List.mem_filter]
  constructor
  · rintro ⟨_, hscore⟩
    omega
  · intro hscore
    refine ⟨Or.inr ⟨he, ?_⟩, by omega⟩
    simpa using hm

theorem add_to_transaction_history_trim_witness :
    ((20000, ZMember.valid e6w)
        ∈ ((add_to_transaction_history s6w "C1" e6b 86400).cards "C1").history)
      ↔ e6b.timestamp - 86400 < 20000 :=
  add_to_transaction_history_trim s6w "C1" e6b (20000, ZMember.valid e6w)
    (by decide) (by decide)

theorem storeWF_add_to_transaction_history (s : Store) (c : String)
    (t : TxEntry) (ttl : ℤ) (h : StoreWF s) :
    StoreWF (add_to_transaction_history s c t ttl) := by
  unfold add_to_transaction_history
  refine storeWF_setCard s c _ h ?_
  intro e he tx htx
  unfold zremrangebyscoreMinf at he
  rw [List.mem_filter] at he
  obtain ⟨he1, _⟩ := he
  unfold zadd at he1
  rw [mem_zinsert] at he1
  rcases he1 with rfl | he1
  · injection htx with h1
    rw [← h1]
  · rw [List.mem_filter] at he1
    exact h c e he1.1 tx htx

theorem history_add_merchant (s : Store) (c m : String) (ttl : ℤ) (c' : String) :
    ((add_merchant_to_set s c m ttl).cards c').history = (s.cards c').history := by
  unfold add_merchant_to_set Store.setCard
  by_cases hmem : m ∈ (s.cards c).merchants
  · simp [hmem]
  · simp only [hmem, if_false]
    by_cases hc : c' = c
    · subst hc
      simp [Function.update_same]
    · simp [Function.update_noteq hc]

theorem history_update_rolling (s : Store) (c : String) (a alpha : ℚ)
    (c' : String) :
    ((update_rolling_average s c a alpha).2.cards c').history
      = (s.cards c').history := by
  unfold update_rolling_average Store.setCard
  by_cases hc : c' = c
  · subst hc
    simp [Function.update_same]
  · simp [Function.update_noteq hc]

theorem history_update_last (s : Store) (c : String) (ts : ℤ) (c' : String) :
    ((update_last_transaction_timestamp s c ts).cards c').history
      = (s.cards c').history := by
  unfold update_last_transaction_timestamp Store.setCard
  by_cases hc : c' = c
  · subst hc
    simp [Function.update_same]
  · simp [Function.update_noteq hc]

theorem storeWF_update_card_state (s : Store) (c : String) (t : Tx)
    (h : StoreWF s) : StoreWF (update_card_state s c t) := by
  unfold update_card_state
  intro c' e he tx htx
  rw [history_update_last, history_update_rolling, history_add_merchant] at he
  exact storeWF_add_to_transaction_history s c _ 86400 h c' e he tx htx

theorem merchants_nodup_add_merchant (s : Store) (c m : String) (ttl : ℤ)
    (h : ∀ c0, (s.cards c0).merchants.Nodup) :
    ∀ c0, ((add_merchant_to_set s c m ttl).cards c0).merchants.Nodup := by
  intro c0
  unfold add_merchant_to_set Store.setCard
  by_cases hmem : m ∈ (s.cards c).merchants
  · simp only [hmem, if_true]
    exact h c0
  · simp only [hmem, if_false]
    by_cases hc : c0 = c
    · subst hc
      simp only [Function.update_same]
      rw [List.nodup_append]
      refine ⟨h c0, List.nodup_singleton m, ?_⟩
      intro x hx hx1
      rw [List.mem_singleton] at hx1
      subst hx1
      exact hmem hx
    · simp only [Function.update_noteq hc]
      exact h c0

theorem preprocess_schema_error (r : RawTx) (h : missingRequired r ≠ []) :
    preprocess r
      = .error (.schema ("Invalid transaction: " ++ (validate_schema r).2)) := by
  rcases r with ⟨tid, cid, a, mid, ts, mc, lat, lon, city, st, uid⟩
  cases tid <;> cases cid <;> cases a <;> cases mid <;> cases ts <;>
    first
      | rfl
      | exact absurd rfl h

/-- C7: a message missing a required field makes `preprocess` raise a
SchemaError; the consumer loop counts it in `messages_failed` only, and
performs no store write at all for that message. -/
theorem consume_step_schema_failure (s : Store) (met : Metrics) (m : RawTx)
    (h : missingRequired m ≠ []) :
    consume_step s met m
      = (s, { met with messages_failed := met.messages_failed + 1 }) := by
  unfold consume_step process_message
  rw [preprocess_schema_error m h]
  rfl

theorem consume_step_schema_failure_witness :
    consume_step z0 ⟨0, 0⟩ m7 = (z0, ⟨0, 1⟩) :=
  consume_step_schema_failure z0 ⟨0, 0⟩ m7 (by decide)

theorem missingRequired_eq_nil (r : RawTx) :
    missingRequired r = []
      ↔ r.transaction_id ≠ none ∧ r.card_id ≠ none ∧ r.amount ≠ none
        ∧ r.merchant_id ≠ none ∧ r.timestamp ≠ none := by
  unfold missingRequired
  split_ifs <;> simp_all

theorem normalize_amount_eq (clip a : ℚ) :
    normalize_amount clip a = pyRound (min |a| clip) 2 := by
  simp only [normalize_amount]
  have h1 : (if a < 0 then |a| else a) = |a| := by
    split
    · rfl
    · rename_i hn
      rw [abs_of_nonneg (not_lt.mp hn)]
  rw [h1]
  have h2 : (if |a| > clip then clip else |a|) = min |a| clip := by
    rcases le_or_lt |a| clip with hle | hlt
    · rw [if_neg (not_lt.mpr hle), min_eq_left hle]
    · rw [if_pos hlt, min_eq_right (le_of_lt hlt)]
  rw [h2]

theorem validate_ranges_ok_pos (t : Tx) (h : validate_ranges t = .ok ()) :
    0 < t.amount := by
  unfold validate_ranges at h
  split_ifs at h with h1 h2 h3 h4
  simp_all

theorem preprocess_ok_iff (r : RawTx) (o : Tx) :
    preprocess r = .ok o ↔
      ∃ tid cid a mid ts,
        r.transaction_id = some tid ∧ r.card_id = some cid ∧ r.amount = some a ∧
        r.merchant_id = some mid ∧ r.timestamp = some ts ∧
        o = build_tx r tid cid a mid ts ∧ validate_ranges o = .ok () := by
  constructor
  · intro h
    unfold preprocess at h
    split at h
    · rename_i tid cid a mid ts htid hcid ha hmid hts
      split at h
      · rename_i u hv
        cases u
        refine ⟨tid, cid, a, mid, ts, htid, hcid, ha, hmid, hts, ?_, ?_⟩
        · cases h
          rfl
        · cases h
          exact hv
      · cases h
    · cases h
  · rintro ⟨tid, cid, a, mid, ts, h1, h2, h3, h4, h5, rfl, hv⟩
    unfold preprocess
    rw [h1, h2, h3, h4, h5]
    simp only []
    rw [hv]

/-- C4 (amended): an accepted amount is the absolute value of the input
amount, clipped at `amount_clip_value`, then rounded to 2 decimals by
Python `round` — i.e. half-to-EVEN, not half-away-from-zero — and the
result satisfies `0 < amount ≤ amount_clip_value`; an input whose
normalized amount is 0 is rejected with a RangeError. -/
theorem preprocess_amount_normalization :
    (∀ r : RawTx, ∀ o : Tx, ∀ a : ℚ,
        preprocess r = .ok o → r.amount = some a →
          o.amount = pyRound (min |a| amount_clip_value) 2
            ∧ 0 < o.amount ∧ o.amount ≤ amount_clip_value)
      ∧ (∀ r : RawTx, ∀ a : ℚ,
          missingRequired r = [] → r.amount = some a →
            normalize_amount amount_clip_value a = 0 →
              preprocess r = .error (.range "Amount must be positive")) := by
  constructor
  · intro r o a h hamt
    rw [preprocess_ok_iff] at h
    obtain ⟨tid, cid, a', mid, ts, h1, h2, h3, h4, h5, ho, hv⟩ := h
    rw [hamt] at h3
    injection h3 with h3
    subst h3
    have hoamt : o.amount = pyRound (min |a| amount_clip_value) 2 := by
      rw [ho]
      exact normalize_amount_eq _ _
    refine ⟨hoamt, validate_ranges_ok_pos o hv, ?_⟩
    rw [hoamt]
    exact pyRound_le _ _ 1000000 (by norm_num [amount_clip_value]) (min_le_right _ _)
  · intro r a hmiss hamt hnorm
    obtain ⟨h1, h2, h3, h4, h5⟩ := (missingRequired_eq_nil r).mp hmiss
    obtain ⟨tid, htid⟩ := Option.ne_none_iff_exists'.mp h1
    obtain ⟨cid, hcid⟩ := Option.ne_none_iff_exists'.mp h2
    obtain ⟨mid, hmid⟩ := Option.ne_none_iff_exists'.mp h4
    obtain ⟨ts, hts⟩ := Option.ne_none_iff_exists'.mp h5
    unfold preprocess
    rw [htid, hcid, hamt, hmid, hts]
    simp only []
    have hcond : (build_tx r tid cid a mid ts).amount ≤ 0 := by
      have hb : (build_tx r tid cid a mid ts).amount = 0 := hnorm
      rw [hb]
    have hval : validate_ranges (build_tx r tid cid a mid ts)
        = .error (.range "Amount must be positive") := by
      unfold validate_ranges
      rw [if_pos hcond]
    rw [hval]

theorem min_eighth_clip : min |(1/8 : ℚ)| amount_clip_value = 1/8 := by
  rw [abs_of_nonneg (by norm_num : (0:ℚ) ≤ 1/8)]
  exact min_eq_left (by norm_num [amount_clip_value])

theorem build_r4 : build_tx r4 "t4" "c4" (1/8) "m4" 1707580000 = o4 := by
  have hamt : normalize_amount amount_clip_value ((8 : ℚ)⁻¹) = 12/100 := by
    rw [show ((8:ℚ)⁻¹) = 1/8 by norm_num, normalize_amount_eq, min_eighth_clip]
    norm_num [pyRound, rhe]
  ext <;> simp [build_tx, r4, o4, parse_timestamp, hamt]

theorem validate_o4 : validate_ranges o4 = .ok () := by
  norm_num [validate_ranges, o4, coord_in_range]

theorem preprocess_r4 : preprocess r4 = .ok o4 := by
  have h : preprocess r4
      = match validate_ranges (build_tx r4 "t4" "c4" (1/8) "m4" 1707580000) with
        | .ok _ => .ok (build_tx r4 "t4" "c4" (1/8) "m4" 1707580000)
        | .error e => .error e := rfl
  rw [h, build_r4, validate_o4]

/-- C4 counterexample: at input amount 0.125 the accepted output amount
is 0.12 (Python rounds the tie to the even cent), while rounding
half-away-from-zero as the claim states gives 0.13. -/
theorem preprocess_round_mode_cex :
    preprocess r4 = .ok o4
      ∧ o4.amount = 12/100
      ∧ roundHalfAwayFromZero (min |(1/8 : ℚ)| amount_clip_value) 2 = 13/100
      ∧ (12/100 : ℚ) ≠ 13/100 := by
  refine ⟨preprocess_r4, rfl, ?_, by norm_num⟩
  rw [min_eighth_clip]
  norm_num [roundHalfAwayFromZero]

theorem preprocess_amount_normalization_witness :
    o4.amount = pyRound (min |(1/8 : ℚ)| amount_clip_value) 2
      ∧ 0 < o4.amount ∧ o4.amount ≤ amount_clip_value :=
  preprocess_amount_normalization.1 r4 o4 (1/8) preprocess_r4 rfl

/-- C5: preprocessing is idempotent — re-preprocessing an accepted
output succeeds and returns the identical record. -/
theorem preprocess_idempotent (r : RawTx) (o : Tx) (h : preprocess r = .ok o) :
    preprocess (Tx.toRaw o) = .ok o := by
  rw [preprocess_ok_iff] at h
  obtain ⟨tid, cid, a, mid, ts, h1, h2, h3, h4, h5, ho, hv⟩ := h
  have hoamt : o.amount = pyRound (min |a| amount_clip_value) 2 := by
    rw [ho]
    exact normalize_amount_eq _ _
  have hpos : 0 < o.amount := validate_ranges_ok_pos o hv
  have hle : o.amount ≤ amount_clip_value := by
    rw [hoamt]
    exact pyRound_le _ _ 1000000 (by norm_num [amount_clip_value]) (min_le_right _ _)
  have hnorm : normalize_amount amount_clip_value o.amount = o.amount := by
    rw [normalize_amount_eq, abs_of_nonneg (le_of_lt hpos), min_eq_left hle,
      hoamt, pyRound_idem]
  rw [preprocess_ok_iff]
  refine ⟨o.transaction_id, o.card_id, o.amount, o.merchant_id, o.timestamp,
    rfl, rfl, rfl, rfl, rfl, ?_, hv⟩
  ext <;> simp [build_tx, Tx.toRaw, parse_timestamp, hnorm]

theorem build_r5 : build_tx r5 "t5" "c5" 100 "m5" 1707580000 = o5 := by
  have hamt : normalize_amount amount_clip_value (100 : ℚ) = 100 := by
    rw [normalize_amount_eq, abs_of_nonneg (by norm_num : (0:ℚ) ≤ 100),
      min_eq_left (by norm_num [amount_clip_value])]
    norm_num [pyRound, rhe]
  ext <;> simp [build_tx, r5, o5, parse_timestamp, hamt]

theorem validate_o5 : validate_ranges o5 = .ok () := by
  norm_num [validate_ranges, o5, coord_in_range]

theorem preprocess_r5 : preprocess r5 = .ok o5 := by
  have h : preprocess r5
      = match validate_ranges (build_tx r5 "t5" "c5" 100 "m5" 1707580000) with
        | .ok _ => .ok (build_tx r5 "t5" "c5" 100 "m5" 1707580000)
        | .error e => .error e := rfl
  rw [h, build_r5, validate_o5]

theorem preprocess_idempotent_witness : preprocess (Tx.toRaw o5) = .ok o5 :=
  preprocess_idempotent r5 o5 preprocess_r5

/-- C3 counterexample: on the cold-start event the extractor's
`hour_of_day` is 15 (ts 1707580000 is 15:46:40 UTC), not the claimed 12
(1707580000 is not 12:26:40 UTC; that would be ts 1707568000). -/
theorem cold_start_hour_cex : (extract_features z0 ev3).hour_of_day ≠ 12 := by
  decide

/-- C3 (amended): cold start on the event {amount=100.00, card=C1,
merchant=M1, ts=1707580000} (2024-02-10 15:46:40 UTC, a Saturday)
yields counts 0, `time_since_last_tx` 0, `avg_tx_amount_30d` 75.00,
ratio 1.333, deviation 0.333, `hour_of_day` 15, `day_of_week` 5,
weekend, not night; after `update_card_state` the store holds
`avg_amount` 77.5 and `last_tx_timestamp` 1707580000. -/
theorem cold_start_scenario :
    (extract_features z0 ev3).tx_count_10m = 0
  ∧ (extract_features z0 ev3).tx_count_1h = 0
  ∧ (extract_features z0 ev3).tx_count_24h = 0
  ∧ (extract_features z0 ev3).time_since_last_tx = 0
  ∧ (extract_features z0 ev3).avg_tx_amount_30d = 75
  ∧ (extract_features z0 ev3).amount_vs_avg_ratio = 1333/1000
  ∧ (extract_features z0 ev3).amount_deviation = 333/1000
  ∧ (extract_features z0 ev3).hour_of_day = 15
  ∧ (extract_features z0 ev3).day_of_week = 5
  ∧ (extract_features z0 ev3).is_weekend = 1
  ∧ (extract_features z0 ev3).is_night = 0
  ∧ ((update_card_state z0 "C1" ev3).cards "C1").avg_amount = some (155/2)
  ∧ ((update_card_state z0 "C1" ev3).cards "C1").last_tx_timestamp
      = some 1707580000 := by
  refine ⟨by decide, by decide, by decide, by decide, ?_, ?_, ?_, by decide,
    by decide, by decide, by decide, ?_, by decide⟩
  · norm_num [extract_features, compute_rolling_features, get_rolling_average,
      default_avg_amount, z0, ev3, CardState.empty, pyRound, rhe]
  · norm_num [extract_features, compute_rolling_features, get_rolling_average,
      default_avg_amount, z0, ev3, CardState.empty, pyRound, rhe]
  · norm_num [extract_features, compute_rolling_features, get_rolling_average,
      default_avg_amount, z0, ev3, CardState.empty, pyRound, rhe]
  · norm_num [update_card_state, add_to_transaction_history,
      add_merchant_to_set, update_rolling_average,
      update_last_transaction_timestamp, Store.setCard, Function.update,
      rolling_avg_alpha, z0, ev3, CardState.empty, zadd, zinsert,
      zremrangebyscoreMinf]

end Fraud
